import Mathlib

/-!
Verification development for the DSOLVE-2025 client-side triage intake code.

The definitions below are a shallow embedding of the React components of the
repository:

* `frontend/src/components/TriageAssessment.js` (the draft that keeps an
  `availableSymptoms` / `selectedSymptoms` partition of the symptom catalog);
* the evolved `TriageAssessment` draft (unnamed part_003: age gating via the
  controlled `onChange` handler, gender select, debounced cause validation,
  `handleNext` / `handleSubmit`);
* the `EmergencyInfo` component (unnamed part_001: ISD table, phone and
  emergency-contact validation, `handleSave`).

React `useState` cells are collected into explicit state records; each event
handler becomes a function from state (plus the event payload) to state.
Asynchronous completions (network responses, debounce timer firings) are
modelled as explicit events fed to the continuation the source installs for
them.  JavaScript crashes (property access on `undefined`) are modelled with
`Option`: `none` stands for the thrown `TypeError`.
-/

namespace Triage

/-- Symptom record from the catalog fetched by `GET /triage/symptoms`
(`{ name, severity }`). -/
structure Symptom where
  name : String
  severity : String
  deriving DecidableEq

/-- Response of `POST /triage/validate-cause`
(`{ is_valid, message?, suggestions? }`). -/
structure CauseValidationResult where
  is_valid : Bool
  message : Option String
  suggestions : List String
  deriving DecidableEq

/-- Response of `POST /triage/assess`.  The confidence score is opaque data to
this component (it is only rendered), so it is kept as text here. -/
structure Assessment where
  severity_level : String
  estimated_time_to_treatment : String
  recommended_actions : List String
  confidence_score : String
  deriving DecidableEq

/-! ## Digit strings and `parseInt`

The age `onChange` handler tests the raw input with `/^\d+$/` and then uses
`parseInt`.  On a string matched by `/^\d+$/`, `parseInt` returns its decimal
value; `digitsToNat` computes that value. -/

/-- Decimal value of a list of digit characters (the value `parseInt` returns
on a string matched by `/^\d+$/`). -/
def digitsToNat (l : List Char) : Nat :=
  l.foldl (fun n c => n * 10 + (c.toNat - '0'.toNat)) 0

/-- The decimal value of a digit string (JavaScript `parseInt`, restricted to
inputs that passed the `/^\d+$/` test). -/
def parseIntNat (s : String) : Nat :=
  digitsToNat s.data

/-- JavaScript `/^\d+$/.test(value)`: non-empty and every character a digit. -/
def isDigitString (s : String) : Bool :=
  !s.isEmpty && s.data.all (·.isDigit)

/-! ## State of the evolved `TriageAssessment` component (part_003)

One record collecting the component's `useState` cells. -/

/-- The `useState` cells of the evolved `TriageAssessment` component. -/
structure TriageState where
  activeStep : Nat
  symptoms : List Symptom
  selectedSymptoms : List Symptom
  patientAge : String
  patientGender : String
  mechanismOfInjury : String
  assessment : Option Assessment
  error : Option String
  loading : Bool
  causeValidation : Option CauseValidationResult
  validatingCause : Bool
  deriving DecidableEq

/-- Initial state of the component (the `useState` initial values). -/
def initialTriageState : TriageState :=
  { activeStep := 0
    symptoms := []
    selectedSymptoms := []
    patientAge := ""
    patientGender := ""
    mechanismOfInjury := ""
    assessment := none
    error := none
    loading := false
    causeValidation := none
    validatingCause := false }

/-- Count of symptoms with a given name in a list (used to state pool
properties by name). -/
def countByName (n : String) : List Symptom → Nat
  | [] => 0
  | s :: rest => (if s.name = n then 1 else 0) + countByName n rest

/-- `handleSymptomSelect` of part_003: append the symptom to
`selectedSymptoms` unless one with the same name is already selected. -/
def handleSymptomSelect (st : TriageState) (symptom : Symptom) : TriageState :=
  if (st.selectedSymptoms.find? (fun s => s.name == symptom.name)).isSome then st
  else { st with selectedSymptoms := st.selectedSymptoms ++ [symptom] }

/-- `handleSymptomRemove` of part_003: filter the named symptom out of
`selectedSymptoms` (the catalog list `symptoms` is untouched). -/
def handleSymptomRemove (st : TriageState) (symptomName : String) : TriageState :=
  { st with selectedSymptoms := st.selectedSymptoms.filter (fun s => s.name != symptomName) }

/-- The JavaScript guard `causeValidation && !causeValidation.is_valid`:
a computed cause-validation result exists and is explicitly invalid. -/
def causeBlocks : Option CauseValidationResult → Bool
  | some cv => !cv.is_valid
  | none => false

/-- `handleNext` of part_003: step-gated advance.  From step 0 it requires
`patientAge` and `patientGender` non-empty (JavaScript truthiness on strings)
and no explicitly invalid cause result; from step 1 it requires a non-empty
symptom selection; otherwise it sets the error and leaves the step unchanged.
On success it clears the error and increments the step. -/
def handleNext (st : TriageState) : TriageState :=
  if st.activeStep = 0 then
    if st.patientAge = "" || st.patientGender = "" || causeBlocks st.causeValidation then
      { st with error := some "Please complete all required fields before proceeding" }
    else
      { st with error := none, activeStep := st.activeStep + 1 }
  else if st.activeStep = 1 then
    if st.selectedSymptoms.length = 0 then
      { st with error := some "Please select at least one symptom" }
    else
      { st with error := none, activeStep := st.activeStep + 1 }
  else
    { st with error := none, activeStep := st.activeStep + 1 }

/-- The age field `onChange` handler of part_003: accept the new raw value
only when it is empty or matches `/^\d+$/` with `parseInt` value in 1..120;
otherwise keep the previously stored value. -/
def ageOnChange (patientAge value : String) : String :=
  if value = "" || isDigitString value then
    if value = "" || (0 < parseIntNat value && parseIntNat value ≤ 120) then value
    else patientAge
  else patientAge

/-- Invariant of the stored `patientAge` cell: empty, or a digit string whose
decimal value lies in 1..120. -/
def ageInvariant (s : String) : Bool :=
  s = "" || (isDigitString s && (1 ≤ parseIntNat s && parseIntNat s ≤ 120))

/-! ## `handleSubmit` of part_003

The handler is `async`: it sets `loading` to `true`, awaits
`POST /triage/assess`, and then runs either the success continuation
(`setAssessment`, `setError(null)`, `handleNext()`) or the `catch` block
(error-message extraction), with `setLoading(false)` in `finally`.  The
awaited network result is passed in as an explicit outcome value. -/

/-- Outcome of the awaited `POST /triage/assess` call.  A failure carries
`err.response?.data?.detail?.message` and, when `detail` is itself a string,
`err.response?.data?.detail`, each possibly absent. -/
inductive SubmitOutcome where
  | success (data : Assessment)
  | failure (detailMessage : Option String) (detail : Option String)
  deriving DecidableEq

/-- Error-message extraction of the `catch` block of `handleSubmit`:
`detail.message` first, then a string `detail`, then the generic message. -/
def submitFailureMessage (detailMessage detail : Option String) : String :=
  match detailMessage with
  | some m => m
  | none =>
    match detail with
    | some d => d
    | none => "Failed to assess triage. Please try again."

/-- State right after `setLoading(true)` at the top of `handleSubmit`. -/
def handleSubmitStart (st : TriageState) : TriageState :=
  { st with loading := true }

/-- Complete run of `handleSubmit` for a given awaited outcome: the success
branch stores the assessment, clears the error and calls `handleNext()`; the
`catch` branch stores the extracted message; `finally` clears `loading`. -/
def handleSubmit (st : TriageState) (outcome : SubmitOutcome) : TriageState :=
  let started := handleSubmitStart st
  match outcome with
  | .success data =>
    let afterNext := handleNext { started with assessment := some data, error := none }
    { afterNext with loading := false }
  | .failure dm d =>
    { started with error := some (submitFailureMessage dm d), loading := false }

/-! ## Asynchronous cause validation (part_003 `validateCause`)

`validateCause(cause)` returns immediately (clearing the stored result) when
the text is empty or shorter than 3 characters; otherwise it sets
`validatingCause`, issues `POST /triage/validate-cause`, and installs a
continuation that stores the response unconditionally (`catch` sets the
generic error; `finally` clears `validatingCause`).  The continuation runs
when the response arrives, however many newer requests were issued in the
meantime; the arrival is modelled as an explicit event. -/

/-- Events of the in-flight request/response behaviour of `validateCause`:
`issue c` is a call `validateCause(c)`; `respond c r` is the arrival of the
response to an earlier request for text `c` (`r = none` models a transport
error handled by the `catch` block). -/
inductive CauseEvent where
  | issue (cause : String)
  | respond (toCause : String) (result : Option CauseValidationResult)
  deriving DecidableEq

/-- One event step of the cause-validation behaviour.  On `issue`, the short
input guard `!cause || cause.length < 3` clears the stored result and issues
nothing; otherwise `setValidatingCause(true)` runs and the request goes out.
On `respond`, the installed continuation runs: it stores the arriving result
(or, for a transport error, sets the generic error message) and clears
`validatingCause` — it never compares the responded text with the current
one. -/
def causeStep (st : TriageState) : CauseEvent → TriageState
  | .issue c =>
    if c = "" || c.length < 3 then { st with causeValidation := none }
    else { st with validatingCause := true }
  | .respond _ result =>
    match result with
    | some r => { st with causeValidation := some r, validatingCause := false }
    | none => { st with error := some "Failed to validate injury cause", validatingCause := false }

/-- Run of a sequence of cause-validation events. -/
def causeRun (st : TriageState) (events : List CauseEvent) : TriageState :=
  events.foldl causeStep st

/-! ## The debounce effect (part_003 `useEffect` on `mechanismOfInjury`)

Every change of the cause text schedules `validateCause(text)` 500 time units
later; the effect cleanup cancels the previously scheduled timer.  The model
processes a time-ordered list of edits: a pending timer that would have fired
strictly before the next edit fires (running the short-input guard of
`validateCause`); a timer still pending when the text changes is cancelled
and replaced.  The trailing timer fires after the last edit. -/

/-- Accumulated observable behaviour of the debounced validator: the pending
timer (fire time and text), the remote calls issued (time and text), and the
times at which the short-input guard cleared the stored result. -/
structure DebounceState where
  pending : Option (Nat × String)
  calls : List (Nat × String)
  clears : List Nat
  deriving DecidableEq

/-- Firing of the debounce timer at time `ft` with text `s`: the entry guard
of `validateCause` either clears the stored result (short input, no request)
or issues the remote call. -/
def fireTimer (acc : DebounceState) (ft : Nat) (s : String) : DebounceState :=
  if s = "" || s.length < 3 then { acc with clears := acc.clears ++ [ft] }
  else { acc with calls := acc.calls ++ [(ft, s)] }

/-- An edit of the cause text at time `t` to text `s`: a pending timer due at
or before `t` has already fired; a later pending timer is cancelled by the
effect cleanup; a fresh timer is scheduled for `t + 500`. -/
def debounceEdit (acc : DebounceState) (t : Nat) (s : String) : DebounceState :=
  let acc' :=
    match acc.pending with
    | some (ft, sOld) =>
      if ft ≤ t then fireTimer { acc with pending := none } ft sOld
      else { acc with pending := none }
    | none => acc
  { acc' with pending := some (t + 500, s) }

/-- After the last edit nothing cancels the timer, so it fires. -/
def debounceFlush (acc : DebounceState) : DebounceState :=
  match acc.pending with
  | some (ft, s) => fireTimer { acc with pending := none } ft s
  | none => acc

/-- The observable behaviour of the debounced validator over a time-ordered
list of edits `(time, new text)`, starting with no pending timer. -/
def debounceRun (edits : List (Nat × String)) : DebounceState :=
  debounceFlush (edits.foldl (fun acc e => debounceEdit acc e.1 e.2) ⟨none, [], []⟩)

/-! ## The available/selected pool of `TriageAssessment.js`

This draft keeps the catalog partitioned over the two cells
`availableSymptoms` and `selectedSymptoms`.  `handleSymptomRemove` appends
the value of `selectedSymptoms.find(...)` to `availableSymptoms`; when the
name is absent that value is `undefined`, so an `availableSymptoms` entry is
modelled as `Option Symptom` (`none` = the JavaScript `undefined`).  The
name test `s.name !== symptom.name` inside the `filter` would throw on an
`undefined` entry; on `none` the comparison is modelled as a mismatch (it is
never exercised by the theorems below, which only reach `undefined`-free
available lists). -/

/-- The two pool cells of `TriageAssessment.js`. -/
structure PoolState where
  availableSymptoms : List (Option Symptom)
  selectedSymptoms : List Symptom
  deriving DecidableEq

/-- Name of an available-list entry (`none` = `undefined` carries no name). -/
def entryName : Option Symptom → Option String
  | some s => some s.name
  | none => none

/-- `handleSymptomSelect` of `TriageAssessment.js`: append the clicked
symptom to `selectedSymptoms` (no already-selected guard in this draft) and
filter its name out of `availableSymptoms`. -/
def poolSelect (st : PoolState) (symptom : Symptom) : PoolState :=
  { selectedSymptoms := st.selectedSymptoms ++ [symptom]
    availableSymptoms := st.availableSymptoms.filter (fun s => entryName s != some symptom.name) }

/-- `handleSymptomRemove` of `TriageAssessment.js`: look the name up in
`selectedSymptoms`, filter it out of `selectedSymptoms`, and append the
lookup result — `undefined` when absent — to `availableSymptoms`. -/
def poolRemove (st : PoolState) (symptomName : String) : PoolState :=
  let symptom := st.selectedSymptoms.find? (fun s => s.name == symptomName)
  { selectedSymptoms := st.selectedSymptoms.filter (fun s => s.name != symptomName)
    availableSymptoms := st.availableSymptoms ++ [symptom] }

/-- Count of available-list entries carrying a given name. -/
def countAvail (n : String) : List (Option Symptom) → Nat
  | [] => 0
  | e :: rest => (if entryName e = some n then 1 else 0) + countAvail n rest

/-- Pool states reachable through the component's interface, starting from
the catalog fetched at session start: select is invoked by clicking a chip
rendered from `availableSymptoms`, remove by the delete icon of a chip
rendered from `selectedSymptoms`, so each call's argument is drawn from the
corresponding current list. -/
inductive PoolReachable (catalog : List Symptom) : PoolState → Prop
  | init : PoolReachable catalog ⟨catalog.map some, []⟩
  | select (st : PoolState) (s : Symptom) :
      PoolReachable catalog st → some s ∈ st.availableSymptoms →
      PoolReachable catalog (poolSelect st s)
  | remove (st : PoolState) (s : Symptom) :
      PoolReachable catalog st → s ∈ st.selectedSymptoms →
      PoolReachable catalog (poolRemove st s.name)

/-! ## `EmergencyInfo` (part_001)

The evolved emergency-contact sub-form: ISD country-code table, phone
validation, full-form validation with an enum relationship plus an "Other"
free-text companion, and `handleSave`, whose `alert(...)` call stands for the
hand-off to persistence.  `validatePhone` reads `.length` off the result of
`ISD_CODES.find(...)`; for a chosen code outside the table that result is
`undefined` and the read throws, which is modelled by `none`. -/

/-- One row of the ISD country-code table (`{ code, country, length }`). -/
structure ISDCode where
  code : String
  country : String
  length : Nat
  deriving DecidableEq

/-- The `ISD_CODES` table of `EmergencyInfo`. -/
def ISD_CODES : List ISDCode :=
  [ ⟨"+1", "United States/Canada", 10⟩,
    ⟨"+44", "United Kingdom", 10⟩,
    ⟨"+91", "India", 10⟩,
    ⟨"+86", "China", 11⟩,
    ⟨"+81", "Japan", 10⟩,
    ⟨"+49", "Germany", 10⟩,
    ⟨"+33", "France", 9⟩,
    ⟨"+39", "Italy", 10⟩,
    ⟨"+34", "Spain", 9⟩,
    ⟨"+61", "Australia", 9⟩ ]

/-- JavaScript `String.prototype.trim`: the string with leading and trailing
whitespace removed.  (Lean's own `String.trim` agrees but is defined through
position arithmetic the kernel cannot evaluate, so the character-list form is
used throughout.) -/
def jsTrim (s : String) : String :=
  ⟨(((s.data.dropWhile Char.isWhitespace).reverse.dropWhile Char.isWhitespace)).reverse⟩

/-- Length of a string after discarding leading and trailing whitespace
(JavaScript `s.trim().length`).  The debounce spec speaks of input "shorter
than 3 characters after trim"; the source guard, by contrast, reads the raw
`cause.length`. -/
def trimmedLength (s : String) : Nat :=
  (jsTrim s).length

/-- The `useState` cells of `EmergencyInfo` that validation reads. -/
structure ContactState where
  contactName : String
  phoneNumber : String
  relationship : String
  otherRelationship : String
  selectedISD : String
  deriving DecidableEq

/-- `validatePhone` of part_001: requires a chosen country code, then exact
digit-count match against the table row.  The value is
`(validity, error message set)`; `none` models the `TypeError` thrown when
the chosen code is not in the table (`selectedCountry` is `undefined`),
which the `Select` options make unreachable. -/
def validatePhone (selectedISD number : String) : Option (Bool × String) :=
  if selectedISD = "" then some (false, "Please select a country code first")
  else
    match ISD_CODES.find? (fun c => c.code == selectedISD) with
    | none => none
    | some selectedCountry =>
      if number.length ≠ selectedCountry.length then
        some (false, "Phone number should be " ++ toString selectedCountry.length
          ++ " digits for " ++ selectedCountry.country)
      else some (true, "")

/-- `validateForm` of part_001: name, relationship, the "Other" companion
field, phone presence, then `validatePhone`, in that order; the value is
`(validity, error message set)`. -/
def validateForm (st : ContactState) : Option (Bool × String) :=
  if jsTrim st.contactName = "" then
    some (false, "Contact name is required and can only contain letters and spaces")
  else if st.relationship = "" then
    some (false, "Please select a relationship")
  else if st.relationship = "Other" && jsTrim st.otherRelationship = "" then
    some (false, "Please specify the relationship")
  else if st.phoneNumber = "" then
    some (false, "Phone number is required")
  else
    match validatePhone st.selectedISD st.phoneNumber with
    | none => none
    | some (false, e) => some (false, e)
    | some (true, _) => some (true, "")

/-- `handleSave` of part_001: run `validateForm`; only when it passes, hand
the record to persistence (the `alert` call).  The value is
`(side effect performed, error message set)`. -/
def handleSave (st : ContactState) : Option (Option String × String) :=
  match validateForm st with
  | none => none
  | some (false, e) => some (none, e)
  | some (true, e) => some (some "Emergency contact information saved!", e)

/-! ## Counting lemmas for the symptom collections -/

theorem countByName_append (n : String) (l₁ l₂ : List Symptom) :
    countByName n (l₁ ++ l₂) = countByName n l₁ + countByName n l₂ := by
  induction l₁ with
  | nil => simp [countByName]
  | cons x xs ih => simp [countByName, ih]; omega

theorem countAvail_append (n : String) (l₁ l₂ : List (Option Symptom)) :
    countAvail n (l₁ ++ l₂) = countAvail n l₁ + countAvail n l₂ := by
  induction l₁ with
  | nil => simp [countAvail]
  | cons x xs ih => simp [countAvail, ih]; omega

theorem countAvail_map_some (n : String) (l : List Symptom) :
    countAvail n (l.map some) = countByName n l := by
  induction l with
  | nil => simp [countAvail, countByName]
  | cons x xs ih => simp [countAvail, countByName, entryName, ih]

theorem countAvail_filter_length (n : String) (l : List (Option Symptom)) :
    (l.filter (fun e => entryName e != some n)).length + countAvail n l = l.length := by
  induction l with
  | nil => simp [countAvail]
  | cons x xs ih =>
    by_cases h : entryName x = some n
    · simp [List.filter_cons, h, countAvail]; omega
    · simp [List.filter_cons, h, countAvail]; omega

theorem countAvail_filter_self (n : String) (l : List (Option Symptom)) :
    countAvail n (l.filter (fun e => entryName e != some n)) = 0 := by
  induction l with
  | nil => simp [countAvail]
  | cons x xs ih =>
    by_cases h : entryName x = some n
    · simp [List.filter_cons, h, ih]
    · simp [List.filter_cons, h, countAvail, ih]

theorem countAvail_filter_other (m n : String) (hmn : m ≠ n) (l : List (Option Symptom)) :
    countAvail m (l.filter (fun e => entryName e != some n)) = countAvail m l := by
  induction l with
  | nil => simp
  | cons x xs ih =>
    by_cases h : entryName x = some n
    · simp [List.filter_cons, h, countAvail, ih]
      exact fun hnm => hmn hnm.symm
    · simp [List.filter_cons, h, countAvail, ih]

theorem countByName_filter_length (n : String) (l : List Symptom) :
    (l.filter (fun s => s.name != n)).length + countByName n l = l.length := by
  induction l with
  | nil => simp [countByName]
  | cons x xs ih =>
    by_cases h : x.name = n
    · simp [List.filter_cons, h, countByName]; omega
    · simp [List.filter_cons, h, countByName]; omega

theorem countByName_filter_self (n : String) (l : List Symptom) :
    countByName n (l.filter (fun s => s.name != n)) = 0 := by
  induction l with
  | nil => simp [countByName]
  | cons x xs ih =>
    by_cases h : x.name = n
    · simp [List.filter_cons, h, ih]
    · simp [List.filter_cons, h, countByName, ih]

theorem countByName_filter_other (m n : String) (hmn : m ≠ n) (l : List Symptom) :
    countByName m (l.filter (fun s => s.name != n)) = countByName m l := by
  induction l with
  | nil => simp
  | cons x xs ih =>
    by_cases h : x.name = n
    · simp [List.filter_cons, h, countByName, ih]
      exact fun hnm => hmn hnm.symm
    · simp [List.filter_cons, h, countByName, ih]

theorem countAvail_pos_of_mem (s : Symptom) (l : List (Option Symptom)) (h : some s ∈ l) :
    1 ≤ countAvail s.name l := by
  induction l with
  | nil => simp at h
  | cons x xs ih =>
    rcases List.mem_cons.mp h with h | h
    · simp [countAvail, ← h, entryName]
    · have := ih h
      simp [countAvail]; omega

theorem countByName_pos_of_mem (s : Symptom) (l : List Symptom) (h : s ∈ l) :
    1 ≤ countByName s.name l := by
  induction l with
  | nil => simp at h
  | cons x xs ih =>
    rcases List.mem_cons.mp h with h | h
    · simp [countByName, ← h]
    · have := ih h
      simp [countByName]; omega

theorem find?_name_of_mem (s : Symptom) (l : List Symptom) (h : s ∈ l) :
    ∃ s₀, l.find? (fun x => x.name == s.name) = some s₀ ∧ s₀.name = s.name := by
  induction l with
  | nil => simp at h
  | cons x xs ih =>
    by_cases hx : x.name = s.name
    · exact ⟨x, by simp [List.find?_cons, hx], hx⟩
    · have hs : s ∈ xs := by
        rcases List.mem_cons.mp h with h | h
        · exact absurd (by rw [h]) hx
        · exact h
      rcases ih hs with ⟨s₀, hfind, hname⟩
      exact ⟨s₀, by simp [List.find?_cons, hx, hfind], hname⟩

theorem find?_none_of_countByName_zero (n : String) (l : List Symptom)
    (h : countByName n l = 0) : l.find? (fun x => x.name == n) = none := by
  induction l with
  | nil => simp
  | cons x xs ih =>
    simp [countByName] at h
    by_cases hx : x.name = n
    · simp [hx] at h
    · simp [List.find?_cons, hx, ih h.2]

theorem countByName_eq_zero_of_not_mem (n : String) (l : List Symptom)
    (h : n ∉ l.map Symptom.name) : countByName n l = 0 := by
  induction l with
  | nil => simp [countByName]
  | cons x xs ih =>
    simp at h
    have h1 : x.name ≠ n := fun he => h.1 he.symm
    have h2 : n ∉ xs.map Symptom.name := by
      simpa using h.2
    simp [countByName, h1, ih h2]

theorem countByName_le_one_of_nodup (n : String) (l : List Symptom)
    (h : (l.map Symptom.name).Nodup) : countByName n l ≤ 1 := by
  induction l with
  | nil => simp [countByName]
  | cons x xs ih =>
    simp [List.nodup_cons] at h
    by_cases hx : x.name = n
    · have : countByName n xs = 0 :=
        countByName_eq_zero_of_not_mem n xs (by simpa [hx] using h.1)
      simp [countByName, hx, this]
    · simp [countByName, hx]
      exact ih h.2

theorem find?_isSome_append_self (s : Symptom) (l : List Symptom) :
    (((l ++ [s]).find? (fun x => x.name == s.name))).isSome = true := by
  induction l with
  | nil => simp [List.find?_cons]
  | cons x xs ih =>
    by_cases h : x.name = s.name
    · simp [List.find?_cons, h]
    · simp [List.find?_cons, h, ih]

/-! ## Claim theorems -/

theorem ageOnChange_preserves (current value : String)
    (h : ageInvariant current = true) : ageInvariant (ageOnChange current value) = true := by
  unfold ageOnChange
  split
  · split
    · rename_i h1 h2
      simp only [Bool.or_eq_true, Bool.and_eq_true, decide_eq_true_eq] at h1 h2
      unfold ageInvariant
      rcases h1 with h1 | h1
      · simp [h1]
      · rcases h2 with h2 | h2
        · simp [h2]
        · simp only [Bool.or_eq_true, Bool.and_eq_true, decide_eq_true_eq]
          right
          refine ⟨h1, ?_, ?_⟩ <;> omega
    · exact h
  · exact h

/-- C10: after every sequence of age-input change events starting from the
initial empty field, the stored `patientAge` string is either empty or a
digit-only string whose decimal value lies in 1..120; the change handler
discards any other input, so a value like `"0"` can never be stored. -/
theorem age_invariant_all_sequences (events : List String) :
    ageInvariant (events.foldl ageOnChange "") = true
    ∧ events.foldl ageOnChange "" ≠ "0" := by
  have main : ∀ (evs : List String) (s : String), ageInvariant s = true →
      ageInvariant (evs.foldl ageOnChange s) = true := by
    intro evs
    induction evs with
    | nil => intro s hs; simpa using hs
    | cons v vs ih =>
      intro s hs
      simpa using ih (ageOnChange s v) (ageOnChange_preserves s v hs)
  have hinv : ageInvariant (events.foldl ageOnChange "") = true := main events "" (by decide)
  refine ⟨hinv, fun hzero => ?_⟩
  rw [hzero] at hinv
  exact absurd hinv (by decide)

/-- C8: `handleSymptomSelect` (part_003) is idempotent — a second select of
the same symptom finds it already in `selectedSymptoms` by name and is a
no-op — so selecting `"fever"` twice from a state that does not yet hold it
leaves it in `selectedSymptoms` exactly once; and in the
available/selected draft, selecting a symptom leaves no entry with its name
in `availableSymptoms`. -/
theorem select_idempotent (st : TriageState) (s : Symptom) (pst : PoolState) :
    handleSymptomSelect (handleSymptomSelect st s) s = handleSymptomSelect st s
    ∧ (countByName s.name st.selectedSymptoms = 0 →
        countByName s.name
          (handleSymptomSelect (handleSymptomSelect st s) s).selectedSymptoms = 1)
    ∧ countAvail s.name (poolSelect pst s).availableSymptoms = 0 := by
  have hidem : handleSymptomSelect (handleSymptomSelect st s) s = handleSymptomSelect st s := by
    unfold handleSymptomSelect
    by_cases h : ((st.selectedSymptoms.find? (fun x => x.name == s.name))).isSome = true
    · simp [h]
    · simp only [h, if_false, if_neg h]
      have h2 : (((st.selectedSymptoms ++ [s]).find? (fun x => x.name == s.name))).isSome = true :=
        find?_isSome_append_self s st.selectedSymptoms
      simp [h2]
  refine ⟨hidem, fun hzero => ?_, countAvail_filter_self s.name pst.availableSymptoms⟩
  rw [hidem]
  have hfind : st.selectedSymptoms.find? (fun x => x.name == s.name) = none :=
    find?_none_of_countByName_zero s.name st.selectedSymptoms hzero
  unfold handleSymptomSelect
  rw [hfind]
  simp [countByName_append, countByName, hzero]

/-- Witness for `select_idempotent`: selecting `"fever"` twice in a row from
the empty selection stores it exactly once. -/
theorem select_idempotent_witness :
    countByName "fever"
      (handleSymptomSelect
        (handleSymptomSelect initialTriageState ⟨"fever", "high"⟩) ⟨"fever", "high"⟩).selectedSymptoms = 1 :=
  (select_idempotent initialTriageState ⟨"fever", "high"⟩ ⟨[], []⟩).2.1 (by decide)

/-- C9 (code bug): `handleSymptomRemove` of `TriageAssessment.js` is not a
no-op when the named symptom is absent from `selectedSymptoms` — the failed
`find` yields `undefined`, which the handler appends to `availableSymptoms`
(modelled as `none`), instead of leaving both collections unchanged. -/
theorem remove_absent_appends_undefined :
    poolRemove ⟨[some ⟨"fever", "high"⟩], []⟩ "headache"
      = ⟨[some ⟨"fever", "high"⟩, none], []⟩
    ∧ poolRemove ⟨[some ⟨"fever", "high"⟩], []⟩ "headache"
      ≠ ⟨[some ⟨"fever", "high"⟩], []⟩ := by
  constructor
  · rfl
  · decide

/-- C3 counterexample: a request for text `"AAA"` is in flight when the text
changes and a request for `"BBB"` is issued; `"BBB"`'s response arrives
first, then `"AAA"`'s stale response arrives — and overwrites the stored
result (the continuation installed by `validateCause` stores every arriving
response unconditionally), so the final stored result is the stale one, not
the one for the most recently issued request. -/
theorem stale_response_overwrites :
    (causeRun initialTriageState
      [CauseEvent.issue "AAA", CauseEvent.issue "BBB",
       CauseEvent.respond "BBB" (some ⟨true, none, []⟩),
       CauseEvent.respond "AAA" (some ⟨false, some "stale", []⟩)]).causeValidation
      = some ⟨false, some "stale", []⟩
    ∧ (⟨false, some "stale", []⟩ : CauseValidationResult) ≠ ⟨true, none, []⟩ := by
  constructor
  · rfl
  · decide

/-- C3 amended: responses are applied in arrival order with no staleness
check — whichever successful response arrives last overwrites the stored
cause-validation result, regardless of any newer request issued in between
(last-to-arrive-wins, not last-issued-wins). -/
theorem cause_last_arrival_wins (st : TriageState) (events : List CauseEvent)
    (c : String) (r : CauseValidationResult) :
    (causeRun st (events ++ [CauseEvent.respond c (some r)])).causeValidation = some r := by
  simp [causeRun, List.foldl_append, causeStep]

/-- C6 counterexample: the short-input guard of `validateCause` tests the raw
length (`cause.length < 3`), not the trimmed length — the input `"a  "`
(one letter and two spaces) is shorter than 3 characters after trim, yet the
debounced run issues a remote call for it. -/
theorem debounce_call_despite_short_trim :
    trimmedLength "a  " < 3 ∧ (debounceRun [(0, "a  ")]).calls = [(500, "a  ")] := by
  constructor
  · decide
  · rfl

/-- C6 amended: a remote validation call is issued only after 500 time units
of quiescence since the last edit, each new edit cancels and restarts the
pending timer, and exactly one call is issued per burst — edits at `t`,
`t+100`, `t+200` produce exactly one call, at `t+700`, for the last text;
input shorter than 3 characters by raw length (the guard does not trim)
never triggers a call and instead clears any prior result when the debounce
fires. -/
theorem debounce_burst_single_call (t : Nat) (s0 s1 s2 : String) :
    (¬ s2.length < 3 →
      debounceRun [(t, s0), (t + 100, s1), (t + 200, s2)]
        = ⟨none, [(t + 700, s2)], []⟩)
    ∧ (s2.length < 3 →
      debounceRun [(t, s0), (t + 100, s1), (t + 200, s2)]
        = ⟨none, [], [t + 700]⟩) := by
  have hA : ¬ (t + 500 ≤ t + 100) := by omega
  have hB : ¬ (t + 600 ≤ t + 200) := by omega
  constructor
  · intro h2
    have h2' : ¬ (s2 = "" ∨ s2.length < 3) := by
      rintro (rfl | h) <;> [exact h2 (by decide); exact h2 h]
    simp [debounceRun, debounceEdit, debounceFlush, fireTimer, hA, hB, h2']
  · intro h2
    simp [debounceRun, debounceEdit, debounceFlush, fireTimer, hA, hB, h2]

/-- Witness for `debounce_burst_single_call`: the burst of §8's scenario
(edits at 10, 110, 210 ending in `"car accident"`) issues exactly the one
call at 710. -/
theorem debounce_burst_single_call_witness :
    debounceRun [(10, "ab"), (110, "abc"), (210, "car accident")]
      = ⟨none, [(710, "car accident")], []⟩ :=
  (debounce_burst_single_call 10 "ab" "abc" "car accident").1 (by decide)

theorem validatePhone_found (c : ISDCode) (p : String) (hne : c.code ≠ "")
    (hfind : ISD_CODES.find? (fun x => x.code == c.code) = some c) :
    validatePhone c.code p =
      if p.length = c.length then some (true, "")
      else some (false, "Phone number should be " ++ toString c.length
        ++ " digits for " ++ c.country) := by
  unfold validatePhone
  rw [if_neg hne, hfind]
  by_cases hp : p.length = c.length
  · simp [hp]
  · simp [hp]

/-- C4: for a chosen country code from the ISD table, the phone number is
valid exactly when its digit count equals the table row's expected length;
with no country code chosen, validation fails with "Please select a country
code first" regardless of the number; and the table's expected lengths are
+1→10, +44→10, +91→10, +86→11, +81→10, +49→10, +33→9, +39→10, +34→9,
+61→9. -/
theorem phone_valid_iff_exact_length (c : ISDCode) (hc : c ∈ ISD_CODES) (p : String) :
    ((validatePhone c.code p).map Prod.fst = some true ↔ p.length = c.length)
    ∧ validatePhone "" p = some (false, "Please select a country code first")
    ∧ ((ISD_CODES.find? (fun x => x.code == "+1")).map ISDCode.length = some 10
      ∧ (ISD_CODES.find? (fun x => x.code == "+44")).map ISDCode.length = some 10
      ∧ (ISD_CODES.find? (fun x => x.code == "+91")).map ISDCode.length = some 10
      ∧ (ISD_CODES.find? (fun x => x.code == "+86")).map ISDCode.length = some 11
      ∧ (ISD_CODES.find? (fun x => x.code == "+81")).map ISDCode.length = some 10
      ∧ (ISD_CODES.find? (fun x => x.code == "+49")).map ISDCode.length = some 10
      ∧ (ISD_CODES.find? (fun x => x.code == "+33")).map ISDCode.length = some 9
      ∧ (ISD_CODES.find? (fun x => x.code == "+39")).map ISDCode.length = some 10
      ∧ (ISD_CODES.find? (fun x => x.code == "+34")).map ISDCode.length = some 9
      ∧ (ISD_CODES.find? (fun x => x.code == "+61")).map ISDCode.length = some 9) := by
  refine ⟨?_, by simp [validatePhone], by decide⟩
  have hne : c.code ≠ "" := by fin_cases hc <;> decide
  have hfind : ISD_CODES.find? (fun x => x.code == c.code) = some c := by
    fin_cases hc <;> rfl
  rw [validatePhone_found c p hne hfind]
  by_cases hp : p.length = c.length <;> simp [hp]

/-- Witness for `phone_valid_iff_exact_length`: §8 scenario 5 — country code
+33 with an 8-digit number is invalid, since France expects 9 digits. -/
theorem phone_valid_iff_exact_length_witness :
    ¬ ((validatePhone "+33" "12345678").map Prod.fst = some true) :=
  fun h =>
    absurd
      ((phone_valid_iff_exact_length ⟨"+33", "France", 9⟩ (by decide) "12345678").1.mp h)
      (by decide)

/-- C5: from the Symptoms step with a non-empty selection, `handleSubmit`
sets `loading` at the start and clears it on completion in both outcomes; on
success it stores the assessment, clears the error and advances to the
Result step; on failure it sets the extracted error message and changes
nothing else — the step stays at Symptoms and the form fields and selection
are preserved for retry. -/
theorem submit_lifecycle (st : TriageState) (a : Assessment) (dm d : Option String)
    (hstep : st.activeStep = 1) (hsel : st.selectedSymptoms ≠ []) :
    (handleSubmitStart st).loading = true
    ∧ handleSubmit st (SubmitOutcome.success a)
        = { st with activeStep := 2, assessment := some a, error := none, loading := false }
    ∧ handleSubmit st (SubmitOutcome.failure dm d)
        = { st with error := some (submitFailureMessage dm d), loading := false } := by
  refine ⟨rfl, ?_, rfl⟩
  unfold handleSubmit handleSubmitStart handleNext
  simp [hstep, List.length_eq_zero, hsel]

/-- Witness for `submit_lifecycle`: a failed submission with no detail in the
response keeps the step at Symptoms and surfaces the generic message. -/
theorem submit_lifecycle_witness :
    handleSubmit
      { initialTriageState with activeStep := 1, selectedSymptoms := [⟨"fever", "high"⟩] }
      (SubmitOutcome.failure none none)
      = { initialTriageState with activeStep := 1, selectedSymptoms := [⟨"fever", "high"⟩], error := some "Failed to assess triage. Please try again.", loading := false } :=
  (submit_lifecycle
    { initialTriageState with activeStep := 1, selectedSymptoms := [⟨"fever", "high"⟩] }
    ⟨"", "", [], ""⟩ none none rfl (by decide)).2.2

theorem validateForm_true_msg (st : ContactState) (e : String)
    (h : validateForm st = some (true, e)) : e = "" := by
  unfold validateForm at h
  split_ifs at h <;> try simp at h
  split at h <;> simp_all

/-- C7: `handleSave` hands the record to persistence exactly when the full
validation passes; otherwise the first failing field's message (in the
evaluation order of `validateForm`) is surfaced and no side effect is
performed — in particular with relationship "Other" and an empty companion
field, saving fails with "Please specify the relationship" and makes no
persistence call. -/
theorem save_effect_iff_valid (st : ContactState) :
    ((∃ eff e, handleSave st = some (some eff, e)) ↔ validateForm st = some (true, ""))
    ∧ (∀ e, validateForm st = some (false, e) → handleSave st = some (none, e))
    ∧ handleSave ⟨"John Doe", "", "Other", "", ""⟩
        = some (none, "Please specify the relationship") := by
  refine ⟨⟨?_, ?_⟩, ?_, by decide⟩
  · rintro ⟨eff, e, h⟩
    unfold handleSave at h
    split at h
    · simp at h
    · simp at h
    · rename_i e' heq
      have he : e' = "" := validateForm_true_msg st e' heq
      rw [he] at heq
      exact heq
  · intro hv
    unfold handleSave
    rw [hv]
    exact ⟨"Emergency contact information saved!", "", rfl⟩
  · intro e hv
    unfold handleSave
    rw [hv]

/-- Witness for `save_effect_iff_valid`: the all-empty contact form fails on
the contact name, and no persistence call is made. -/
theorem save_effect_iff_valid_witness :
    handleSave ⟨"", "", "", "", ""⟩
      = some (none, "Contact name is required and can only contain letters and spaces") :=
  (save_effect_iff_valid ⟨"", "", "", "", ""⟩).2.1
    "Contact name is required and can only contain letters and spaces" (by decide)

/-- C1: for any state at the Demographics step whose stored fields are the
ones the controlled inputs can produce (the age cell satisfies the
`onChange` invariant, the gender cell is empty or one of the three menu
values), `handleNext` advances to the Symptoms step and clears the error
exactly when the age parses to an integer in 1..120, the gender is one of
the three enumerated values, and either no cause-validation result has been
computed or the most recent result is valid; otherwise it surfaces the
validation message and leaves the step unchanged. -/
theorem advance_demographics_iff (st : TriageState)
    (hstep : st.activeStep = 0)
    (hage : ageInvariant st.patientAge = true)
    (hgender : st.patientGender = "" ∨ st.patientGender = "male" ∨
      st.patientGender = "female" ∨ st.patientGender = "other") :
    (((handleNext st).activeStep = 1 ∧ (handleNext st).error = none)
      ↔ ((isDigitString st.patientAge = true
            ∧ 1 ≤ parseIntNat st.patientAge ∧ parseIntNat st.patientAge ≤ 120)
          ∧ (st.patientGender = "male" ∨ st.patientGender = "female"
              ∨ st.patientGender = "other")
          ∧ (st.causeValidation = none
              ∨ ∃ cv, st.causeValidation = some cv ∧ cv.is_valid = true)))
    ∧ (¬ ((isDigitString st.patientAge = true
            ∧ 1 ≤ parseIntNat st.patientAge ∧ parseIntNat st.patientAge ≤ 120)
          ∧ (st.patientGender = "male" ∨ st.patientGender = "female"
              ∨ st.patientGender = "other")
          ∧ (st.causeValidation = none
              ∨ ∃ cv, st.causeValidation = some cv ∧ cv.is_valid = true))
        → handleNext st
            = { st with error := some "Please complete all required fields before proceeding" }) := by
  have hageProp : st.patientAge ≠ "" →
      isDigitString st.patientAge = true
        ∧ 1 ≤ parseIntNat st.patientAge ∧ parseIntNat st.patientAge ≤ 120 := by
    intro hne
    simp only [ageInvariant, Bool.or_eq_true, Bool.and_eq_true, decide_eq_true_eq] at hage
    rcases hage with h | h
    · exact absurd h hne
    · exact h
  have hdigit_ne : isDigitString st.patientAge = true → st.patientAge ≠ "" := by
    intro hd he
    rw [he] at hd
    exact absurd hd (by decide)
  by_cases ha : st.patientAge = ""
  · have hfail : handleNext st
        = { st with error := some "Please complete all required fields before proceeding" } := by
      unfold handleNext
      simp [hstep, ha]
    have hLHSfalse : ¬ ((handleNext st).activeStep = 1 ∧ (handleNext st).error = none) := by
      rintro ⟨h1, _⟩
      rw [hfail] at h1
      simp [hstep] at h1
    exact ⟨iff_of_false hLHSfalse (fun h => hdigit_ne h.1.1 ha), fun _ => hfail⟩
  · by_cases hg : st.patientGender = ""
    · have hfail : handleNext st
          = { st with error := some "Please complete all required fields before proceeding" } := by
        unfold handleNext
        simp [hstep, ha, hg]
      have hnotgender : ¬ (st.patientGender = "male" ∨ st.patientGender = "female"
          ∨ st.patientGender = "other") := by
        rw [hg]
        rintro (h | h | h) <;> exact absurd h (by decide)
      have hLHSfalse : ¬ ((handleNext st).activeStep = 1 ∧ (handleNext st).error = none) := by
        rintro ⟨h1, _⟩
        rw [hfail] at h1
        simp [hstep] at h1
      exact ⟨iff_of_false hLHSfalse (fun h => hnotgender h.2.1), fun _ => hfail⟩
    · have hgender3 : st.patientGender = "male" ∨ st.patientGender = "female"
          ∨ st.patientGender = "other" := by
        rcases hgender with h | h
        · exact absurd h hg
        · exact h
      rcases Option.eq_none_or_eq_some st.causeValidation with hcv | ⟨r, hcv⟩
      · have hsucc : handleNext st = { st with error := none, activeStep := st.activeStep + 1 } := by
          unfold handleNext
          simp [hstep, ha, hg, hcv, causeBlocks]
        have hrhs : (isDigitString st.patientAge = true
              ∧ 1 ≤ parseIntNat st.patientAge ∧ parseIntNat st.patientAge ≤ 120)
            ∧ (st.patientGender = "male" ∨ st.patientGender = "female"
                ∨ st.patientGender = "other")
            ∧ (st.causeValidation = none
                ∨ ∃ cv, st.causeValidation = some cv ∧ cv.is_valid = true) :=
          ⟨hageProp ha, hgender3, Or.inl hcv⟩
        refine ⟨iff_of_true ⟨?_, ?_⟩ hrhs, fun hn => absurd hrhs hn⟩
        · rw [hsucc]; simp [hstep]
        · rw [hsucc]
      · rcases Bool.eq_false_or_eq_true r.is_valid with hb | hb
        · have hsucc : handleNext st
              = { st with error := none, activeStep := st.activeStep + 1 } := by
            unfold handleNext
            simp [hstep, ha, hg, hcv, causeBlocks, hb]
          have hrhs : (isDigitString st.patientAge = true
                ∧ 1 ≤ parseIntNat st.patientAge ∧ parseIntNat st.patientAge ≤ 120)
              ∧ (st.patientGender = "male" ∨ st.patientGender = "female"
                  ∨ st.patientGender = "other")
              ∧ (st.causeValidation = none
                  ∨ ∃ cv, st.causeValidation = some cv ∧ cv.is_valid = true) :=
            ⟨hageProp ha, hgender3, Or.inr ⟨r, hcv, hb⟩⟩
          refine ⟨iff_of_true ⟨?_, ?_⟩ hrhs, fun hn => absurd hrhs hn⟩
          · rw [hsucc]; simp [hstep]
          · rw [hsucc]
        · have hfail : handleNext st
              = { st with error := some "Please complete all required fields before proceeding" } := by
            unfold handleNext
            simp [hstep, ha, hg, hcv, causeBlocks, hb]
          have hnotcause : ¬ (st.causeValidation = none
              ∨ ∃ cv, st.causeValidation = some cv ∧ cv.is_valid = true) := by
            rintro (h | ⟨cv, hcv', hvalid⟩)
            · rw [hcv] at h
              exact absurd h (by simp)
            · rw [hcv] at hcv'
              obtain rfl : cv = r := (Option.some.inj hcv').symm
              rw [hb] at hvalid
              exact absurd hvalid (by decide)
          have hLHSfalse : ¬ ((handleNext st).activeStep = 1 ∧ (handleNext st).error = none) := by
            rintro ⟨h1, _⟩
            rw [hfail] at h1
            simp [hstep] at h1
          exact ⟨iff_of_false hLHSfalse (fun h => hnotcause h.2.2), fun _ => hfail⟩

/-- Witness for `advance_demographics_iff`: §8 scenario 1 — age `"34"`,
gender `"female"`, no cause result: `handleNext` from Demographics advances
to the Symptoms step and clears the error. -/
theorem advance_demographics_iff_witness :
    (handleNext { initialTriageState with patientAge := "34", patientGender := "female" }).activeStep = 1
    ∧ (handleNext { initialTriageState with patientAge := "34", patientGender := "female" }).error = none :=
  (advance_demographics_iff
    { initialTriageState with patientAge := "34", patientGender := "female" }
    rfl (by decide) (by decide)).1.mpr
    (by exact ⟨by decide, by decide, Or.inl rfl⟩)

/-- C2: starting from the catalog fetched at session start (whose symptom
names are pairwise distinct), any sequence of select and remove operations
invoked through the component's interface — select on a symptom rendered
from `availableSymptoms`, remove on the name of a symptom rendered from
`selectedSymptoms` — keeps `|available| + |selected|` equal to the catalog
size and, for each name, the available and selected occurrence counts
summing to the catalog's count; hence the two collections stay disjoint and
their union covers exactly the catalog: no symptom appears in both or in
neither. -/
theorem pool_partition_conserved (catalog : List Symptom) (st : PoolState)
    (hnodup : (catalog.map Symptom.name).Nodup)
    (hreach : PoolReachable catalog st) :
    st.availableSymptoms.length + st.selectedSymptoms.length = catalog.length
    ∧ (∀ n, countAvail n st.availableSymptoms + countByName n st.selectedSymptoms
        = countByName n catalog)
    ∧ (∀ n, ¬ (1 ≤ countAvail n st.availableSymptoms
        ∧ 1 ≤ countByName n st.selectedSymptoms))
    ∧ (∀ n, (1 ≤ countAvail n st.availableSymptoms
        ∨ 1 ≤ countByName n st.selectedSymptoms) ↔ 1 ≤ countByName n catalog) := by
  have hone : ∀ n, countByName n catalog ≤ 1 :=
    fun n => countByName_le_one_of_nodup n catalog hnodup
  have main : st.availableSymptoms.length + st.selectedSymptoms.length = catalog.length
      ∧ ∀ n, countAvail n st.availableSymptoms + countByName n st.selectedSymptoms
        = countByName n catalog := by
    induction hreach with
    | init =>
      constructor
      · simp
      · intro n
        simp [countAvail_map_some, countByName]
    | select st' s hr hmem ih =>
      obtain ⟨ihlen, ihcnt⟩ := ih
      have hpos : 1 ≤ countAvail s.name st'.availableSymptoms :=
        countAvail_pos_of_mem s _ hmem
      have hflen := countAvail_filter_length s.name st'.availableSymptoms
      have hcnt_s := ihcnt s.name
      have hle := hone s.name
      constructor
      · have hlsel : (st'.selectedSymptoms ++ [s]).length = st'.selectedSymptoms.length + 1 := by
          simp
        simp only [poolSelect]
        omega
      · intro n
        simp only [poolSelect]
        rw [countByName_append]
        by_cases hn : n = s.name
        · subst hn
          rw [countAvail_filter_self]
          have h1 : countByName s.name [s] = 1 := by simp [countByName]
          omega
        · rw [countAvail_filter_other n s.name hn]
          have h0 : countByName n [s] = 0 := by
            simp [countByName]
            exact fun he => hn he.symm
          have := ihcnt n
          omega
    | remove st' s hr hmem ih =>
      obtain ⟨ihlen, ihcnt⟩ := ih
      obtain ⟨s₀, hfind, hname⟩ := find?_name_of_mem s st'.selectedSymptoms hmem
      have hpos : 1 ≤ countByName s.name st'.selectedSymptoms :=
        countByName_pos_of_mem s _ hmem
      have hflen := countByName_filter_length s.name st'.selectedSymptoms
      have hcnt_s := ihcnt s.name
      have hle := hone s.name
      constructor
      · have hlav : (st'.availableSymptoms
              ++ [st'.selectedSymptoms.find? (fun x => x.name == s.name)]).length
            = st'.availableSymptoms.length + 1 := by
          simp
        simp only [poolRemove]
        omega
      · intro n
        simp only [poolRemove]
        rw [countAvail_append, hfind]
        by_cases hn : n = s.name
        · subst hn
          rw [countByName_filter_self]
          have h1 : countAvail s.name [some s₀] = 1 := by
            simp [countAvail, entryName, hname]
          omega
        · rw [countByName_filter_other n s.name hn]
          have h0 : countAvail n [some s₀] = 0 := by
            simp [countAvail, entryName, hname]
            exact fun he => hn he.symm
          have := ihcnt n
          omega
  obtain ⟨hlen, hcnt⟩ := main
  refine ⟨hlen, hcnt, fun n => ?_, fun n => ?_⟩
  · have := hcnt n
    have := hone n
    omega
  · have := hcnt n
    have := hone n
    omega

/-- Witness for `pool_partition_conserved`: on the two-symptom catalog
`fever`, `cough`, selecting `fever` and then removing it leaves the two
collections with two symptoms in total. -/
theorem pool_partition_conserved_witness :
    (poolRemove (poolSelect ⟨[some ⟨"fever", "high"⟩, some ⟨"cough", "low"⟩], []⟩ ⟨"fever", "high"⟩) "fever").availableSymptoms.length
      + (poolRemove (poolSelect ⟨[some ⟨"fever", "high"⟩, some ⟨"cough", "low"⟩], []⟩ ⟨"fever", "high"⟩) "fever").selectedSymptoms.length
      = 2 :=
  (pool_partition_conserved [⟨"fever", "high"⟩, ⟨"cough", "low"⟩] _ (by decide)
    (PoolReachable.remove _ ⟨"fever", "high"⟩
      (PoolReachable.select _ ⟨"fever", "high"⟩ PoolReachable.init (by decide))
      (by decide))).1

end Triage
